import Mathlib

/-!
Verification of the slide/audio timeline synchronizer of
`contents-autouploader` (`src/services/sync_service.py`,
`src/models/presentation.py`, `src/models/script.py`).

Modelling conventions:
* Python `float` time/duration values are embedded as exact rationals `ℚ`;
  the arithmetic the synchronizer performs (cursor accumulation, max,
  subtraction for `SyncInfo.duration`) is modelled exactly.
* Python `Path` values are embedded as `String`.
* Python `dict` values built from association lists (the comprehension on
  line 32 of `sync_service.py`, and the `actual_durations` / `audio_files`
  dict arguments) are embedded as association lists with a
  last-binding-wins lookup, matching `dict` insertion semantics.
* The single `raise ValueError` in `create_simple_sync` is embedded with
  `Except`; the error value carries the two counts named in the message.
* Python `int` identifiers are embedded as `Int`; list indices as `Nat`.
-/

/-- Model of `src/models/script.py` `ScriptSection`: a section of the script
corresponding to one slide.  Fields not read by the synchronizer
(`title`, `content`, `key_points`, `slide_notes`) are kept as data. -/
structure ScriptSection where
  section_id : Int
  title : String
  content : String
  key_points : List String
  slide_notes : String
  estimated_duration_sec : ℚ
deriving Repr, DecidableEq

/-- Model of `src/models/script.py` `Script`: complete script with all
sections. -/
structure Script where
  title : String
  description : String
  sections : List ScriptSection
  tags : List String
  total_duration_sec : ℚ
deriving Repr, DecidableEq

/-- Model of `src/models/presentation.py` `Slide`. -/
structure Slide where
  slide_index : Nat
  title : String
  content : List String
  notes : String
  image_path : Option String
deriving Repr, DecidableEq

/-- Model of `src/models/presentation.py` `Presentation`. -/
structure Presentation where
  title : String
  slides : List Slide
  file_path : Option String
deriving Repr, DecidableEq

/-- Model of `src/models/presentation.py` `SyncInfo`: synchronization
information for a slide. -/
structure SyncInfo where
  slide_index : Nat
  section_id : Int
  start_time : ℚ
  end_time : ℚ
  audio_file : Option String
deriving Repr, DecidableEq

/-- `SyncInfo.duration` property (presentation.py lines 39-42):
`end_time - start_time`. -/
def SyncInfo.duration (s : SyncInfo) : ℚ := s.end_time - s.start_time

/-- Model of `src/models/presentation.py` `SyncData`: complete
synchronization data.  `total_duration` defaults to `0.0` in the source. -/
structure SyncData where
  sync_items : List SyncInfo
  total_duration : ℚ
deriving Repr, DecidableEq

/-- `SyncData.calculate_total_duration` (presentation.py lines 53-57): if
`sync_items` is non-empty, set `total_duration` to the maximum `end_time`
over the items (a left fold of `max`, as Python's `max` over a generator);
otherwise leave the object unchanged.  The Python method mutates `self`
and returns the new value; we model the mutation by returning the updated
record. -/
def SyncData.calculate_total_duration (sd : SyncData) : SyncData :=
  match sd.sync_items with
  | [] => sd
  | it :: rest =>
    { sd with
      total_duration := rest.foldl (fun m x => max m x.end_time) it.end_time }

/-- One `(section_id, audio_path, duration)` triple of the
`audio_durations` argument of `create_sync_data`. -/
abbrev AudioTriple : Type := Int × String × ℚ

/-- The `audio_map` dict comprehension (sync_service.py line 32) followed by
`audio_map.get(section_id, default)` without the default: the value bound
to `sid` after inserting the triples left to right, so a later triple with
the same `section_id` overwrites an earlier one (last one wins). -/
def audioMapGet (audio_durations : List AudioTriple) (sid : Int) :
    Option (String × ℚ) :=
  audio_durations.foldl
    (fun acc t => if t.1 = sid then some (t.2.1, t.2.2) else acc) none

/-- Lookup in a Python `dict[int, float]` built by inserting an association
list left to right (used for the `actual_durations` argument of
`adjust_timing`): last binding wins, `none` when the key is absent. -/
def dictLookup (m : List (Int × ℚ)) (k : Int) : Option ℚ :=
  m.foldl (fun acc p => if p.1 = k then some p.2 else acc) none

/-- The `for i, section in enumerate(script.sections)` loop of
`create_sync_data` (sync_service.py lines 54-72).  `slidesLen` is
`len(presentation.slides)`, `off` the `slide_offset`, `i` the enumeration
index and `t` the running `current_time` cursor.  The `break` on
`slide_index >= len(presentation.slides)` is modelled by returning `[]`:
since `i` only increases, the guard stays true for all later iterations,
so stopping at the first failure is exactly `break`. -/
def sectionsLoop (slidesLen : Nat) (off : Nat) (audio : List AudioTriple) :
    List ScriptSection → Nat → ℚ → List SyncInfo
  | [], _, _ => []
  | sec :: rest, i, t =>
    if slidesLen ≤ i + off then []
    else
      let ad : Option String × ℚ :=
        match audioMapGet audio sec.section_id with
        | some (p, d) => (some p, d)
        | none => (none, sec.estimated_duration_sec)
      { slide_index := i + off
        section_id := sec.section_id
        start_time := t
        end_time := t + ad.2
        audio_file := ad.1 } :: sectionsLoop slidesLen off audio rest (i + 1) (t + ad.2)

namespace SyncService

/-- `SyncService.create_sync_data` (sync_service.py lines 12-77): when the
presentation has strictly more slides than the script has sections, a
title window `(slide 0, section_id 0, 0.0 to 3.0, no audio)` is emitted
first, the cursor starts at `3.0` and the slide offset is `1`; otherwise
no title window and offset `0`.  Then the sections loop runs and
`calculate_total_duration` is applied to the fresh `SyncData` (whose
`total_duration` field starts at the default `0.0`). -/
def create_sync_data (script : Script) (presentation : Presentation)
    (audio_durations : List AudioTriple) : SyncData :=
  if script.sections.length < presentation.slides.length then
    let title : SyncInfo :=
      { slide_index := 0, section_id := 0, start_time := 0, end_time := 3
        audio_file := none }
    SyncData.calculate_total_duration
      { sync_items :=
          title ::
            sectionsLoop presentation.slides.length 1 audio_durations
              script.sections 0 3
        total_duration := 0 }
  else
    SyncData.calculate_total_duration
      { sync_items :=
          sectionsLoop presentation.slides.length 0 audio_durations
            script.sections 0 0
        total_duration := 0 }

/-- The error raised by `create_simple_sync` (sync_service.py lines 93-97):
a `ValueError` whose message names the number of durations and the number
of slides; the spec calls it `InputMismatch`. -/
inductive SyncError where
  | InputMismatch (num_durations : Nat) (num_slides : Nat)
deriving Repr, DecidableEq

/-- The `for i, (slide, duration) in enumerate(zip(presentation.slides,
durations))` loop of `create_simple_sync` (sync_service.py lines
102-112). -/
def simpleLoop : List (Slide × ℚ) → Nat → ℚ → List SyncInfo
  | [], _, _ => []
  | (_, d) :: rest, i, t =>
    { slide_index := i
      section_id := (i : Int)
      start_time := t
      end_time := t + d
      audio_file := none } :: simpleLoop rest (i + 1) (t + d)

/-- `SyncService.create_simple_sync` (sync_service.py lines 79-117). -/
def create_simple_sync (presentation : Presentation) (durations : List ℚ) :
    Except SyncError SyncData :=
  if durations.length ≠ presentation.slides.length then
    .error (.InputMismatch durations.length presentation.slides.length)
  else
    .ok (SyncData.calculate_total_duration
      { sync_items := simpleLoop (presentation.slides.zip durations) 0 0
        total_duration := 0 })

/-- The `for sync_item in sync_data.sync_items` loop of `adjust_timing`
(sync_service.py lines 155-163): each item's duration is taken from the
`actual_durations` dict when its `section_id` is a key, otherwise from the
item's own `duration` property; `start_time` and `end_time` are rewritten
from the running cursor. -/
def adjustLoop (m : List (Int × ℚ)) : List SyncInfo → ℚ → List SyncInfo
  | [], _ => []
  | it :: rest, t =>
    let d : ℚ :=
      match dictLookup m it.section_id with
      | some d => d
      | none => it.duration
    { it with start_time := t, end_time := t + d } :: adjustLoop m rest (t + d)

/-- `SyncService.adjust_timing` (sync_service.py lines 139-166): rewrite
every item's timing from a zero cursor then recompute the total duration.
The Python method mutates `sync_data` in place and returns it; we model
the mutation by returning the updated record. -/
def adjust_timing (sync_data : SyncData) (actual_durations : List (Int × ℚ)) :
    SyncData :=
  SyncData.calculate_total_duration
    { sync_data with sync_items := adjustLoop actual_durations sync_data.sync_items 0 }

/-- The lookup loop of `get_slide_at_time` (sync_service.py lines
178-181). -/
def slideAtLoop (time : ℚ) : List SyncInfo → Option Nat
  | [] => none
  | it :: rest =>
    if it.start_time ≤ time ∧ time < it.end_time then some it.slide_index
    else slideAtLoop time rest

/-- `SyncService.get_slide_at_time` (sync_service.py lines 168-181). -/
def get_slide_at_time (sync_data : SyncData) (time : ℚ) : Option Nat :=
  slideAtLoop time sync_data.sync_items

end SyncService

/-! ### Specification predicates -/

/-- A list of windows is chained from cursor value `t`: the first window (if
any) starts at `t` and the rest are chained from its `end_time`.  This is
the invariant the sequential-cursor construction maintains. -/
def ChainedFrom : ℚ → List SyncInfo → Prop
  | _, [] => True
  | t, it :: rest => it.start_time = t ∧ ChainedFrom it.end_time rest

/-- Contiguity as the spec states it: the first window (if any) starts at
`0.0`, and every adjacent pair of windows meets exactly. -/
def Contiguous (l : List SyncInfo) : Prop :=
  (∀ it, l.head? = some it → it.start_time = 0) ∧
  ∀ k it it', l[k]? = some it → l[k + 1]? = some it' →
    it'.start_time = it.end_time

/-- The timeline's cached `total_duration` is the maximum `end_time` over
its windows: an upper bound that is attained. -/
def IsMaxEnd (sd : SyncData) : Prop :=
  (∀ it ∈ sd.sync_items, it.end_time ≤ sd.total_duration) ∧
  ∃ it ∈ sd.sync_items, sd.total_duration = it.end_time

/-- Every window satisfies `0 ≤ start_time < end_time`. -/
def WindowsWellFormed (l : List SyncInfo) : Prop :=
  ∀ it ∈ l, 0 ≤ it.start_time ∧ it.start_time < it.end_time

instance : DecidablePred (WindowsWellFormed ·) := fun l =>
  inferInstanceAs (Decidable (∀ it ∈ l, _ ∧ _))

/-! ### Sample inputs used by witness theorems -/

/-- A sample script section with a given id and estimated duration. -/
def sampleSection (id : Int) (d : ℚ) : ScriptSection :=
  { section_id := id, title := "s", content := "c", key_points := []
    slide_notes := "", estimated_duration_sec := d }

/-- A sample slide at a given index. -/
def sampleSlide (i : Nat) : Slide :=
  { slide_index := i, title := "t", content := [], notes := ""
    image_path := none }

/-- A sample script wrapping a list of sections. -/
def sampleScript (ss : List ScriptSection) : Script :=
  { title := "t", description := "", sections := ss, tags := []
    total_duration_sec := 0 }

/-- A sample presentation with `n` slides. -/
def samplePres (n : Nat) : Presentation :=
  { title := "t", slides := (List.range n).map sampleSlide, file_path := none }

instance {e a : Type} [DecidableEq e] [DecidableEq a] :
    DecidableEq (Except e a) := fun x y =>
  match x, y with
  | .error u, .error v =>
    if h : u = v then isTrue (by rw [h]) else
      isFalse (fun hc => by cases hc; exact h rfl)
  | .ok u, .ok v =>
    if h : u = v then isTrue (by rw [h]) else
      isFalse (fun hc => by cases hc; exact h rfl)
  | .error _, .ok _ => isFalse (fun hc => by cases hc)
  | .ok _, .error _ => isFalse (fun hc => by cases hc)

/-- A sample window with no audio file. -/
def sampleWindow (si : Nat) (id : Int) (a b : ℚ) : SyncInfo :=
  { slide_index := si, section_id := id, start_time := a, end_time := b
    audio_file := none }

/-- The spec's example timeline: windows over 0 to 10 and 10 to 25. -/
def sampleTimeline : SyncData :=
  { sync_items := [sampleWindow 0 0 0 10, sampleWindow 1 1 10 25]
    total_duration := 25 }

/-! ### Helper lemmas: structural facts about the embedded operations -/

theorem calcTotal_sync_items (sd : SyncData) :
    (SyncData.calculate_total_duration sd).sync_items = sd.sync_items := by
  cases sd with
  | mk items total => cases items <;> rfl

theorem chainedFrom_head_start {t : ℚ} {l : List SyncInfo}
    (h : ChainedFrom t l) : ∀ it, l.head? = some it → it.start_time = t := by
  cases l with
  | nil => intro it hit; simp at hit
  | cons a rest =>
    intro it hit
    simp only [List.head?_cons, Option.some.injEq] at hit
    subst hit
    simp only [ChainedFrom] at h
    exact h.1

theorem chainedFrom_adjacent {l : List SyncInfo} :
    ∀ {t : ℚ}, ChainedFrom t l →
      ∀ k it it', l[k]? = some it → l[k + 1]? = some it' →
        it'.start_time = it.end_time := by
  induction l with
  | nil => intro t _ k it it' h1 _; simp at h1
  | cons a rest ih =>
    intro t h k it it' h1 h2
    simp only [ChainedFrom] at h
    cases k with
    | zero =>
      simp only [List.getElem?_cons_zero, Option.some.injEq] at h1
      subst h1
      rw [List.getElem?_cons_succ, ← List.head?_eq_getElem?] at h2
      exact chainedFrom_head_start h.2 it' h2
    | succ k =>
      rw [List.getElem?_cons_succ] at h1 h2
      exact ih h.2 k it it' h1 h2

theorem chainedFrom_contiguous {l : List SyncInfo}
    (h : ChainedFrom 0 l) : Contiguous l :=
  ⟨chainedFrom_head_start h, fun k it it' => chainedFrom_adjacent h k it it'⟩

theorem sectionsLoop_chainedFrom (L off : Nat) (a : List AudioTriple)
    (secs : List ScriptSection) : ∀ (i : Nat) (t : ℚ),
    ChainedFrom t (sectionsLoop L off a secs i t) := by
  induction secs with
  | nil => intro i t; simp [sectionsLoop, ChainedFrom]
  | cons sec rest ih =>
    intro i t
    simp only [sectionsLoop]
    split
    · simp [ChainedFrom]
    · exact ⟨rfl, ih (i + 1) _⟩

theorem simpleLoop_chainedFrom (pairs : List (Slide × ℚ)) :
    ∀ (i : Nat) (t : ℚ), ChainedFrom t (SyncService.simpleLoop pairs i t) := by
  induction pairs with
  | nil => intro i t; simp [SyncService.simpleLoop, ChainedFrom]
  | cons pr rest ih =>
    intro i t
    obtain ⟨sl, d⟩ := pr
    simp only [SyncService.simpleLoop]
    exact ⟨rfl, ih (i + 1) _⟩

theorem adjustLoop_chainedFrom (m : List (Int × ℚ)) (l : List SyncInfo) :
    ∀ (t : ℚ), ChainedFrom t (SyncService.adjustLoop m l t) := by
  induction l with
  | nil => intro t; simp [SyncService.adjustLoop, ChainedFrom]
  | cons it rest ih =>
    intro t
    simp only [SyncService.adjustLoop]
    exact ⟨rfl, ih _⟩

/-- C1: every `SyncData` produced by `create_sync_data`, `create_simple_sync`
or `adjust_timing` is contiguous: its first window (if any) starts at `0.0`
and every adjacent pair of windows meets exactly, `w_succ.start_time =
w.end_time`. -/
theorem C1_contiguity (s : Script) (p : Presentation) (a : List AudioTriple)
    (d : List ℚ) (sd : SyncData) (m : List (Int × ℚ)) :
    Contiguous (SyncService.create_sync_data s p a).sync_items ∧
    (∀ res, SyncService.create_simple_sync p d = .ok res →
      Contiguous res.sync_items) ∧
    Contiguous (SyncService.adjust_timing sd m).sync_items := by
  refine ⟨?_, ?_, ?_⟩
  · unfold SyncService.create_sync_data
    split
    · rw [calcTotal_sync_items]
      refine chainedFrom_contiguous ?_
      simp only [ChainedFrom]
      exact ⟨trivial, sectionsLoop_chainedFrom _ _ _ _ _ _⟩
    · rw [calcTotal_sync_items]
      exact chainedFrom_contiguous (sectionsLoop_chainedFrom _ _ _ _ _ _)
  · intro res hres
    unfold SyncService.create_simple_sync at hres
    split at hres
    · simp at hres
    · injection hres with h
      subst h
      rw [calcTotal_sync_items]
      exact chainedFrom_contiguous (simpleLoop_chainedFrom _ _ _)
  · unfold SyncService.adjust_timing
    rw [calcTotal_sync_items]
    exact chainedFrom_contiguous (adjustLoop_chainedFrom _ _ _)

/-- Witness for C1 at concrete inputs. -/
theorem C1_contiguity_witness :
    Contiguous (SyncService.create_sync_data
      (sampleScript [sampleSection 1 10]) (samplePres 2) []).sync_items ∧
    (∀ res, SyncService.create_simple_sync (samplePres 2) [1, 2] = .ok res →
      Contiguous res.sync_items) ∧
    Contiguous (SyncService.adjust_timing
      { sync_items := [], total_duration := 0 } [(1, 4)]).sync_items :=
  C1_contiguity (sampleScript [sampleSection 1 10]) (samplePres 2) [] [1, 2]
    { sync_items := [], total_duration := 0 } [(1, 4)]

theorem adjustLoop_idem (m : List (Int × ℚ)) (l : List SyncInfo) :
    ∀ t : ℚ, SyncService.adjustLoop m (SyncService.adjustLoop m l t) t =
      SyncService.adjustLoop m l t := by
  induction l with
  | nil => intro t; rfl
  | cons it rest ih =>
    intro t
    cases h : dictLookup m it.section_id with
    | none =>
      simp [SyncService.adjustLoop, h, SyncInfo.duration, add_sub_cancel_left, ih]
    | some d0 =>
      simp [SyncService.adjustLoop, h, ih]

theorem calcTotal_idem (sd : SyncData) :
    SyncData.calculate_total_duration (SyncData.calculate_total_duration sd) =
      SyncData.calculate_total_duration sd := by
  cases sd with
  | mk items total =>
    cases items with
    | nil => rfl
    | cons a rest => rfl

/-- C2: re-deriving the timing twice with the identical correction mapping
gives the same result as re-deriving it once.  With exact (rational)
arithmetic the whole `SyncData` is unchanged by the second application, in
particular every window's `start_time` and `end_time`. -/
theorem C2_adjust_timing_idempotent (sd : SyncData) (m : List (Int × ℚ)) :
    SyncService.adjust_timing (SyncService.adjust_timing sd m) m =
      SyncService.adjust_timing sd m := by
  have hx : SyncService.adjustLoop m (SyncService.adjust_timing sd m).sync_items 0 =
      (SyncService.adjust_timing sd m).sync_items := by
    unfold SyncService.adjust_timing
    rw [calcTotal_sync_items]
    exact adjustLoop_idem m sd.sync_items 0
  calc SyncService.adjust_timing (SyncService.adjust_timing sd m) m
      = SyncData.calculate_total_duration
          { SyncService.adjust_timing sd m with
            sync_items :=
              SyncService.adjustLoop m (SyncService.adjust_timing sd m).sync_items 0 } := rfl
    _ = SyncData.calculate_total_duration (SyncService.adjust_timing sd m) := by rw [hx]
    _ = SyncService.adjust_timing sd m := by
        unfold SyncService.adjust_timing
        exact calcTotal_idem _

theorem adjustLoop_frame (m : List (Int × ℚ)) (l : List SyncInfo) :
    ∀ t : ℚ, (SyncService.adjustLoop m l t).map
        (fun it => (it.slide_index, it.section_id, it.audio_file)) =
      l.map (fun it => (it.slide_index, it.section_id, it.audio_file)) := by
  induction l with
  | nil => intro t; rfl
  | cons it rest ih => intro t; simp [SyncService.adjustLoop, ih]

/-- C10: `adjust_timing` preserves the number of windows, their order, and
each window's `slide_index`, `section_id` and `audio_file`; only the
timing fields and the cached total can change. -/
theorem C10_adjust_timing_frame (sd : SyncData) (m : List (Int × ℚ)) :
    (SyncService.adjust_timing sd m).sync_items.length = sd.sync_items.length ∧
    (SyncService.adjust_timing sd m).sync_items.map
        (fun it => (it.slide_index, it.section_id, it.audio_file)) =
      sd.sync_items.map (fun it => (it.slide_index, it.section_id, it.audio_file)) := by
  unfold SyncService.adjust_timing
  rw [calcTotal_sync_items]
  refine ⟨?_, adjustLoop_frame m sd.sync_items 0⟩
  have h := congrArg List.length (adjustLoop_frame m sd.sync_items 0)
  simpa using h

theorem foldlMax_le_self (l : List SyncInfo) :
    ∀ acc : ℚ, acc ≤ l.foldl (fun m x => max m x.end_time) acc := by
  induction l with
  | nil => intro acc; simp
  | cons a rest ih =>
    intro acc
    exact le_trans (le_max_left acc a.end_time) (ih _)

theorem foldlMax_mem_le (l : List SyncInfo) :
    ∀ acc : ℚ, ∀ it ∈ l, it.end_time ≤ l.foldl (fun m x => max m x.end_time) acc := by
  induction l with
  | nil => intro acc it h; simp at h
  | cons a rest ih =>
    intro acc it h
    rcases List.mem_cons.mp h with rfl | h
    · exact le_trans (le_max_right acc it.end_time) (foldlMax_le_self rest _)
    · exact ih _ it h

theorem foldlMax_attained (l : List SyncInfo) :
    ∀ acc : ℚ, l.foldl (fun m x => max m x.end_time) acc = acc ∨
      ∃ it ∈ l, l.foldl (fun m x => max m x.end_time) acc = it.end_time := by
  induction l with
  | nil => intro acc; left; rfl
  | cons a rest ih =>
    intro acc
    rcases ih (max acc a.end_time) with h | ⟨it, hmem, h⟩
    · rcases le_total acc a.end_time with hle | hle
      · right
        refine ⟨a, List.mem_cons_self a rest, ?_⟩
        rw [List.foldl_cons, h, max_eq_right hle]
      · left
        rw [List.foldl_cons, h, max_eq_left hle]
    · right
      exact ⟨it, List.mem_cons_of_mem a hmem, h⟩

theorem calcTotal_isMaxEnd (sd : SyncData) (h : sd.sync_items ≠ []) :
    IsMaxEnd (SyncData.calculate_total_duration sd) := by
  cases sd with
  | mk items total =>
    cases items with
    | nil => exact absurd rfl h
    | cons a rest =>
      constructor
      · intro it hit
        rw [calcTotal_sync_items] at hit
        show it.end_time ≤ rest.foldl (fun m x => max m x.end_time) a.end_time
        rcases List.mem_cons.mp hit with rfl | hit
        · exact foldlMax_le_self rest _
        · exact foldlMax_mem_le rest _ it hit
      · rcases foldlMax_attained rest a.end_time with h' | ⟨it, hmem, h'⟩
        · exact ⟨a, List.mem_cons_self a rest, h'⟩
        · exact ⟨it, List.mem_cons_of_mem a hmem, h'⟩

theorem calcTotal_isMaxEnd' (X : SyncData)
    (h : (SyncData.calculate_total_duration X).sync_items ≠ []) :
    IsMaxEnd (SyncData.calculate_total_duration X) :=
  calcTotal_isMaxEnd X (by rwa [calcTotal_sync_items] at h)

/-- C4: after any call to `create_sync_data`, `create_simple_sync` or
`adjust_timing` whose result has at least one window, the cached
`total_duration` is exactly the maximum `end_time` over the windows
(an attained upper bound). -/
theorem C4_total_duration (s : Script) (p : Presentation) (a : List AudioTriple)
    (d : List ℚ) (sd : SyncData) (m : List (Int × ℚ)) :
    ((SyncService.create_sync_data s p a).sync_items ≠ [] →
      IsMaxEnd (SyncService.create_sync_data s p a)) ∧
    (∀ res, SyncService.create_simple_sync p d = .ok res →
      res.sync_items ≠ [] → IsMaxEnd res) ∧
    ((SyncService.adjust_timing sd m).sync_items ≠ [] →
      IsMaxEnd (SyncService.adjust_timing sd m)) := by
  refine ⟨?_, ?_, ?_⟩
  · unfold SyncService.create_sync_data
    split
    · exact calcTotal_isMaxEnd' _
    · exact calcTotal_isMaxEnd' _
  · intro res hres
    unfold SyncService.create_simple_sync at hres
    split at hres
    · simp at hres
    · injection hres with h
      subst h
      exact calcTotal_isMaxEnd' _
  · unfold SyncService.adjust_timing
    exact calcTotal_isMaxEnd' _

/-- Witness for C4 at concrete inputs. -/
theorem C4_total_duration_witness :
    IsMaxEnd (SyncService.create_sync_data
      (sampleScript [sampleSection 1 10]) (samplePres 2) []) ∧
    IsMaxEnd { sync_items := [sampleWindow 0 0 0 1, sampleWindow 1 1 1 3]
               total_duration := 3 } ∧
    IsMaxEnd (SyncService.adjust_timing
      { sync_items := [sampleWindow 0 1 0 2], total_duration := 2 } [(1, 4)]) :=
  ⟨(C4_total_duration (sampleScript [sampleSection 1 10]) (samplePres 2) [] [1, 2]
      { sync_items := [], total_duration := 0 } []).1 (by decide),
   (C4_total_duration (sampleScript []) (samplePres 2) [] [1, 2]
      { sync_items := [], total_duration := 0 } []).2.1 _
      (by norm_num [SyncService.create_simple_sync, SyncService.simpleLoop,
        SyncData.calculate_total_duration, samplePres, sampleSlide, sampleWindow])
      (by decide),
   (C4_total_duration (sampleScript []) (samplePres 0) [] []
      { sync_items := [sampleWindow 0 1 0 2], total_duration := 2 } [(1, 4)]).2.2
      (by decide)⟩

theorem audioMapGet_mem_aux (sid : Int) (l : List AudioTriple) :
    ∀ (acc : Option (String × ℚ)) (p : String) (d : ℚ),
      l.foldl (fun acc t => if t.1 = sid then some (t.2.1, t.2.2) else acc) acc =
          some (p, d) →
        (sid, p, d) ∈ l ∨ acc = some (p, d) := by
  induction l with
  | nil => intro acc p d h; right; exact h
  | cons x rest ih =>
    intro acc p d h
    rw [List.foldl_cons] at h
    rcases ih _ p d h with hmem | hacc
    · left; exact List.mem_cons_of_mem x hmem
    · by_cases hx : x.1 = sid
      · rw [if_pos hx] at hacc
        left
        obtain ⟨x1, x2, x3⟩ := x
        simp only [Option.some.injEq, Prod.mk.injEq] at hx hacc
        obtain ⟨hp, hd⟩ := hacc
        subst hx hp hd
        exact List.mem_cons_self _ _
      · rw [if_neg hx] at hacc
        right; exact hacc

theorem audioMapGet_mem (a : List AudioTriple) (sid : Int) (p : String) (d : ℚ)
    (h : audioMapGet a sid = some (p, d)) : (sid, p, d) ∈ a := by
  rcases audioMapGet_mem_aux sid a none p d h with hm | hc
  · exact hm
  · simp at hc

theorem dictLookup_mem_aux (k : Int) (m : List (Int × ℚ)) :
    ∀ (acc : Option ℚ) (d : ℚ),
      m.foldl (fun acc p => if p.1 = k then some p.2 else acc) acc = some d →
        (k, d) ∈ m ∨ acc = some d := by
  induction m with
  | nil => intro acc d h; right; exact h
  | cons x rest ih =>
    intro acc d h
    rw [List.foldl_cons] at h
    rcases ih _ d h with hmem | hacc
    · left; exact List.mem_cons_of_mem x hmem
    · by_cases hx : x.1 = k
      · rw [if_pos hx] at hacc
        left
        obtain ⟨x1, x2⟩ := x
        simp only [Option.some.injEq] at hx hacc
        subst hx hacc
        exact List.mem_cons_self _ _
      · rw [if_neg hx] at hacc
        right; exact hacc

theorem dictLookup_mem (m : List (Int × ℚ)) (k : Int) (d : ℚ)
    (h : dictLookup m k = some d) : (k, d) ∈ m := by
  rcases dictLookup_mem_aux k m none d h with hm | hc
  · exact hm
  · simp at hc

theorem sectionsLoop_wellFormed (L off : Nat) (a : List AudioTriple)
    (ha : ∀ x ∈ a, 0 < x.2.2) :
    ∀ (secs : List ScriptSection),
      (∀ sec ∈ secs, 0 < sec.estimated_duration_sec) →
      ∀ (i : Nat) (t : ℚ), 0 ≤ t →
        WindowsWellFormed (sectionsLoop L off a secs i t) := by
  intro secs
  induction secs with
  | nil => intro _ i t _ it hit; simp [sectionsLoop] at hit
  | cons sec rest ih =>
    intro hsec i t ht it hit
    have hd : 0 < (match audioMapGet a sec.section_id with
        | some (p, d) => ((some p : Option String), d)
        | none => (none, sec.estimated_duration_sec)).2 := by
      cases h : audioMapGet a sec.section_id with
      | none => simpa using hsec sec (List.mem_cons_self _ _)
      | some pd =>
        obtain ⟨p, d⟩ := pd
        simpa using ha _ (audioMapGet_mem a _ p d h)
    simp only [sectionsLoop] at hit
    split at hit
    · simp at hit
    · rcases List.mem_cons.mp hit with rfl | hit
      · exact ⟨ht, by simpa using lt_add_of_pos_right t hd⟩
      · exact ih (fun s hs => hsec s (List.mem_cons_of_mem sec hs)) (i + 1) _
          (by positivity) it hit

theorem simpleLoop_wellFormed :
    ∀ (pairs : List (Slide × ℚ)), (∀ x ∈ pairs, 0 < x.2) →
      ∀ (i : Nat) (t : ℚ), 0 ≤ t →
        WindowsWellFormed (SyncService.simpleLoop pairs i t) := by
  intro pairs
  induction pairs with
  | nil => intro _ i t _ it hit; simp [SyncService.simpleLoop] at hit
  | cons pr rest ih =>
    intro hpos i t ht it hit
    obtain ⟨sl, d⟩ := pr
    have hd : 0 < d := by simpa using hpos (sl, d) (List.mem_cons_self _ _)
    simp only [SyncService.simpleLoop] at hit
    rcases List.mem_cons.mp hit with rfl | hit
    · exact ⟨ht, by simpa using lt_add_of_pos_right t hd⟩
    · exact ih (fun x hx => hpos x (List.mem_cons_of_mem _ hx)) (i + 1) _
        (by linarith) it hit

theorem adjustLoop_wellFormed (m : List (Int × ℚ)) (hm : ∀ x ∈ m, 0 < x.2) :
    ∀ (l : List SyncInfo), (∀ it ∈ l, 0 < it.duration) →
      ∀ (t : ℚ), 0 ≤ t →
        WindowsWellFormed (SyncService.adjustLoop m l t) := by
  intro l
  induction l with
  | nil => intro _ t _ it hit; simp [SyncService.adjustLoop] at hit
  | cons a rest ih =>
    intro hdur t ht it hit
    have hd : 0 < (match dictLookup m a.section_id with
        | some d => d
        | none => a.duration) := by
      cases h : dictLookup m a.section_id with
      | none => simpa using hdur a (List.mem_cons_self _ _)
      | some d => simpa using hm _ (dictLookup_mem m _ d h)
    simp only [SyncService.adjustLoop] at hit
    rcases List.mem_cons.mp hit with rfl | hit
    · exact ⟨ht, by simpa using lt_add_of_pos_right t hd⟩
    · exact ih (fun x hx => hdur x (List.mem_cons_of_mem _ hx)) _
        (by positivity) it hit

/-- C3 as stated is false: with a single section whose
`estimated_duration_sec` is `0.0` (the field's default value), one slide
and no audio, `create_sync_data` emits the window `[0.0, 0.0)`, violating
`start_time < end_time`. -/
theorem C3_counterexample :
    ¬ WindowsWellFormed (SyncService.create_sync_data
      (sampleScript [sampleSection 1 0]) (samplePres 1) []).sync_items := by
  norm_num [WindowsWellFormed, SyncService.create_sync_data, sectionsLoop,
    sampleScript, sampleSection, samplePres, sampleSlide,
    SyncData.calculate_total_duration, audioMapGet]

/-- C3 (amended): under the extra hypothesis that every duration input is
strictly positive — every audio-triple duration, every section's
`estimated_duration_sec`, every explicit duration of the simple variant,
every correction-map value and every pre-existing window duration for
`adjust_timing` — every window of every produced `SyncData` satisfies
`0 ≤ start_time < end_time`. -/
theorem C3_wellformed_amended (s : Script) (p : Presentation)
    (a : List AudioTriple) (d : List ℚ) (sd : SyncData) (m : List (Int × ℚ))
    (ha : ∀ x ∈ a, 0 < x.2.2)
    (hs : ∀ sec ∈ s.sections, 0 < sec.estimated_duration_sec)
    (hd : ∀ x ∈ d, 0 < x)
    (hm : ∀ x ∈ m, 0 < x.2)
    (hsd : ∀ it ∈ sd.sync_items, 0 < it.duration) :
    WindowsWellFormed (SyncService.create_sync_data s p a).sync_items ∧
    (∀ res, SyncService.create_simple_sync p d = .ok res →
      WindowsWellFormed res.sync_items) ∧
    WindowsWellFormed (SyncService.adjust_timing sd m).sync_items := by
  refine ⟨?_, ?_, ?_⟩
  · unfold SyncService.create_sync_data
    split
    · rw [calcTotal_sync_items]
      intro it hit
      rcases List.mem_cons.mp hit with rfl | hit
      · exact ⟨le_refl 0, by norm_num⟩
      · exact sectionsLoop_wellFormed _ 1 a ha s.sections hs 0 3
          (by norm_num) it hit
    · rw [calcTotal_sync_items]
      exact sectionsLoop_wellFormed _ 0 a ha s.sections hs 0 0 le_rfl
  · intro res hres
    unfold SyncService.create_simple_sync at hres
    split at hres
    · simp at hres
    · injection hres with h
      subst h
      rw [calcTotal_sync_items]
      exact simpleLoop_wellFormed (p.slides.zip d)
        (fun x hx => hd x.2 (List.of_mem_zip hx).2) 0 0 le_rfl
  · unfold SyncService.adjust_timing
    rw [calcTotal_sync_items]
    exact adjustLoop_wellFormed m hm sd.sync_items hsd 0 le_rfl

/-- Witness for the amended C3 at concrete inputs. -/
theorem C3_wellformed_amended_witness :
    WindowsWellFormed (SyncService.create_sync_data
      (sampleScript [sampleSection 1 10]) (samplePres 2) [(1, "a", 5)]).sync_items ∧
    (∀ res, SyncService.create_simple_sync (samplePres 2) [1, 2] = .ok res →
      WindowsWellFormed res.sync_items) ∧
    WindowsWellFormed (SyncService.adjust_timing
      { sync_items := [sampleWindow 0 1 0 2], total_duration := 2 }
      [(1, 4)]).sync_items :=
  C3_wellformed_amended (sampleScript [sampleSection 1 10]) (samplePres 2)
    [(1, "a", 5)] [1, 2]
    { sync_items := [sampleWindow 0 1 0 2], total_duration := 2 } [(1, 4)]
    (by norm_num) (by norm_num [sampleScript, sampleSection])
    (by norm_num) (by norm_num)
    (by norm_num [SyncInfo.duration, sampleWindow])

theorem sectionsLoop_getElem (L off : Nat) (a : List AudioTriple) :
    ∀ (secs : List ScriptSection) (i : Nat) (t : ℚ) (k : Nat) (it : SyncInfo),
      (sectionsLoop L off a secs i t)[k]? = some it →
      ∃ sec, secs[k]? = some sec ∧
        it.slide_index = i + k + off ∧
        it.section_id = sec.section_id ∧
        (audioMapGet a sec.section_id = none →
          it.audio_file = none ∧
          it.end_time - it.start_time = sec.estimated_duration_sec) ∧
        (∀ p d, audioMapGet a sec.section_id = some (p, d) →
          it.audio_file = some p ∧ it.end_time - it.start_time = d) := by
  intro secs
  induction secs with
  | nil => intro i t k it h; simp [sectionsLoop] at h
  | cons sec rest ih =>
    intro i t k it h
    simp only [sectionsLoop] at h
    split at h
    · simp at h
    · cases k with
      | zero =>
        rw [List.getElem?_cons_zero] at h
        simp only [Option.some.injEq] at h
        subst h
        refine ⟨sec, by simp, by simp, rfl, ?_, ?_⟩
        · intro hnone
          simp [hnone, add_sub_cancel_left]
        · intro p d hsome
          simp [hsome, add_sub_cancel_left]
      | succ k =>
        rw [List.getElem?_cons_succ] at h
        obtain ⟨sec', hs, h1, h2, h3, h4⟩ := ih (i + 1) _ k it h
        refine ⟨sec', ?_, by omega, h2, h3, h4⟩
        rw [List.getElem?_cons_succ]
        exact hs

theorem sectionsLoop_length (L off : Nat) (a : List AudioTriple) :
    ∀ (secs : List ScriptSection) (i : Nat) (t : ℚ),
      (sectionsLoop L off a secs i t).length = min secs.length (L - (i + off)) := by
  intro secs
  induction secs with
  | nil => intro i t; simp [sectionsLoop]
  | cons sec rest ih =>
    intro i t
    simp only [sectionsLoop]
    split
    · rename_i hle
      simp only [List.length_nil, List.length_cons]
      omega
    · rename_i hgt
      simp only [List.length_cons, ih (i + 1)]
      omega

theorem create_sync_data_items (s : Script) (p : Presentation)
    (a : List AudioTriple) :
    (SyncService.create_sync_data s p a).sync_items =
      if s.sections.length < p.slides.length then
        { slide_index := 0, section_id := 0, start_time := 0, end_time := 3,
          audio_file := none } :: sectionsLoop p.slides.length 1 a s.sections 0 3
      else sectionsLoop p.slides.length 0 a s.sections 0 0 := by
  unfold SyncService.create_sync_data
  split <;> rw [calcTotal_sync_items]

/-- C5: when the presentation has strictly more slides than the script has
sections, the first window is the synthesized title window (slide index 0,
section identifier 0, from `0.0` to `3.0`, no audio file) and the window at
position `k + 1` belongs to section `k` with slide index `k + 1`; when the
slide count is at most the section count, no title window is produced and
the window at position `k` belongs to section `k` with slide index `k`. -/
theorem C5_offset_inference (s : Script) (p : Presentation)
    (a : List AudioTriple) :
    (s.sections.length < p.slides.length →
      (SyncService.create_sync_data s p a).sync_items.head? =
        some { slide_index := 0, section_id := 0, start_time := 0, end_time := 3,
               audio_file := none } ∧
      ∀ (k : Nat) (it : SyncInfo),
        (SyncService.create_sync_data s p a).sync_items[k + 1]? = some it →
        ∃ sec, s.sections[k]? = some sec ∧
          it.slide_index = k + 1 ∧ it.section_id = sec.section_id) ∧
    (p.slides.length ≤ s.sections.length →
      ∀ (k : Nat) (it : SyncInfo),
        (SyncService.create_sync_data s p a).sync_items[k]? = some it →
        ∃ sec, s.sections[k]? = some sec ∧
          it.slide_index = k ∧ it.section_id = sec.section_id) := by
  constructor
  · intro hlt
    rw [create_sync_data_items, if_pos hlt]
    constructor
    · rfl
    · intro k it h
      rw [List.getElem?_cons_succ] at h
      obtain ⟨sec, hs, h1, h2, _, _⟩ :=
        sectionsLoop_getElem p.slides.length 1 a s.sections 0 3 k it h
      exact ⟨sec, hs, by omega, h2⟩
  · intro hge
    rw [create_sync_data_items, if_neg (by omega)]
    intro k it h
    obtain ⟨sec, hs, h1, h2, _, _⟩ :=
      sectionsLoop_getElem p.slides.length 0 a s.sections 0 0 k it h
    exact ⟨sec, hs, by omega, h2⟩

/-- Witness for C5: an offset-case input (1 section, 2 slides) with the
hypothesis discharged, and an equal-count input (1 section, 1 slide)
likewise. -/
theorem C5_offset_inference_witness :
    ((sampleScript [sampleSection 7 10]).sections.length <
        (samplePres 2).slides.length ∧
      ((SyncService.create_sync_data (sampleScript [sampleSection 7 10])
          (samplePres 2) []).sync_items.head? =
        some { slide_index := 0, section_id := 0, start_time := 0, end_time := 3,
               audio_file := none } ∧
       ∀ (k : Nat) (it : SyncInfo),
         (SyncService.create_sync_data (sampleScript [sampleSection 7 10])
           (samplePres 2) []).sync_items[k + 1]? = some it →
         ∃ sec, (sampleScript [sampleSection 7 10]).sections[k]? = some sec ∧
           it.slide_index = k + 1 ∧ it.section_id = sec.section_id)) ∧
    ((samplePres 1).slides.length ≤
        (sampleScript [sampleSection 7 10]).sections.length ∧
      ∀ (k : Nat) (it : SyncInfo),
        (SyncService.create_sync_data (sampleScript [sampleSection 7 10])
          (samplePres 1) []).sync_items[k]? = some it →
        ∃ sec, (sampleScript [sampleSection 7 10]).sections[k]? = some sec ∧
          it.slide_index = k ∧ it.section_id = sec.section_id) :=
  ⟨⟨by decide,
    (C5_offset_inference (sampleScript [sampleSection 7 10]) (samplePres 2) []).1
      (by decide)⟩,
   ⟨by decide,
    (C5_offset_inference (sampleScript [sampleSection 7 10]) (samplePres 1) []).2
      (by decide)⟩⟩

/-- C6: the number of produced windows is the minimum of the slide count
and the section count plus the offset (the offset being 1 exactly when a
title window is synthesized, which accounts for that window); excess
sections are dropped without error, the construction being total. -/
theorem C6_dropped_sections (s : Script) (p : Presentation)
    (a : List AudioTriple) :
    (SyncService.create_sync_data s p a).sync_items.length =
      min p.slides.length
        (s.sections.length +
          if s.sections.length < p.slides.length then 1 else 0) := by
  rw [create_sync_data_items]
  split
  · rename_i hlt
    simp only [List.length_cons, sectionsLoop_length]
    omega
  · rename_i hge
    simp only [sectionsLoop_length]
    omega

theorem foldl_skip_keys (sid : Int) :
    ∀ (l : List AudioTriple), (∀ x ∈ l, x.1 ≠ sid) →
      ∀ acc : Option (String × ℚ),
        l.foldl (fun acc t => if t.1 = sid then some (t.2.1, t.2.2) else acc) acc =
          acc := by
  intro l
  induction l with
  | nil => intro _ acc; rfl
  | cons x rest ih =>
    intro h acc
    simp only [List.foldl_cons]
    rw [if_neg (h x (List.mem_cons_self _ _))]
    exact ih (fun y hy => h y (List.mem_cons_of_mem _ hy)) acc

theorem audioMapGet_of_no_key (a : List AudioTriple) (sid : Int)
    (h : ∀ x ∈ a, x.1 ≠ sid) : audioMapGet a sid = none :=
  foldl_skip_keys sid a h none

theorem audioMapGet_lastWins (l1 : List AudioTriple) (sid : Int) (path : String)
    (dur : ℚ) (l2 : List AudioTriple) (h2 : ∀ x ∈ l2, x.1 ≠ sid) :
    audioMapGet (l1 ++ (sid, path, dur) :: l2) sid = some (path, dur) := by
  unfold audioMapGet
  rw [List.foldl_append]
  simp only [List.foldl_cons]
  simp only [if_true]
  exact foldl_skip_keys sid l2 h2 _

/-- C7: for every produced section window (at position `k` plus the offset),
if the section's identifier occurs in none of the audio-duration triples
then the window's duration equals the section's `estimated_duration_sec`
and its `audio_file` is absent (the construction is total, so the call
cannot fail); and when the identifier occurs in several triples, the last
such triple's path and duration are the ones used. -/
theorem C7_missing_audio (s : Script) (p : Presentation)
    (a : List AudioTriple) :
    ∀ (k : Nat) (it : SyncInfo) (sec : ScriptSection),
      (SyncService.create_sync_data s p a).sync_items[k +
          (if s.sections.length < p.slides.length then 1 else 0)]? = some it →
      s.sections[k]? = some sec →
      ((∀ x ∈ a, x.1 ≠ sec.section_id) →
        it.end_time - it.start_time = sec.estimated_duration_sec ∧
        it.audio_file = none) ∧
      (∀ (l1 : List AudioTriple) (path : String) (dur : ℚ)
          (l2 : List AudioTriple),
        a = l1 ++ (sec.section_id, path, dur) :: l2 →
        (∀ x ∈ l2, x.1 ≠ sec.section_id) →
        it.end_time - it.start_time = dur ∧ it.audio_file = some path) := by
  intro k it sec h hsec
  rw [create_sync_data_items] at h
  by_cases hlt : s.sections.length < p.slides.length
  · rw [if_pos hlt, if_pos hlt] at h
    rw [List.getElem?_cons_succ] at h
    obtain ⟨sec', hs, _, _, h3, h4⟩ :=
      sectionsLoop_getElem p.slides.length 1 a s.sections 0 3 k it h
    rw [hsec] at hs
    injection hs with hs
    subst hs
    constructor
    · intro hno
      have hc := h3 (audioMapGet_of_no_key a _ hno)
      exact ⟨hc.2, hc.1⟩
    · intro l1 path dur l2 ha hl2
      have hlast : audioMapGet a sec.section_id = some (path, dur) := by
        rw [ha]
        exact audioMapGet_lastWins l1 _ path dur l2 hl2
      have hc := h4 path dur hlast
      exact ⟨hc.2, hc.1⟩
  · rw [if_neg hlt, if_neg hlt] at h
    rw [Nat.add_zero] at h
    obtain ⟨sec', hs, _, _, h3, h4⟩ :=
      sectionsLoop_getElem p.slides.length 0 a s.sections 0 0 k it h
    rw [hsec] at hs
    injection hs with hs
    subst hs
    constructor
    · intro hno
      have hc := h3 (audioMapGet_of_no_key a _ hno)
      exact ⟨hc.2, hc.1⟩
    · intro l1 path dur l2 ha hl2
      have hlast : audioMapGet a sec.section_id = some (path, dur) := by
        rw [ha]
        exact audioMapGet_lastWins l1 _ path dur l2 hl2
      have hc := h4 path dur hlast
      exact ⟨hc.2, hc.1⟩

/-- Witness for C7: two sections (ids 1 and 2), two slides, and the audio
triples hold two entries for id 1 and none for id 2.  The id-2 window
falls back to the estimated duration with no audio; the id-1 window takes
the path and duration of the last id-1 triple. -/
theorem C7_missing_audio_witness :
    ((sampleWindow 1 2 8 28).end_time - (sampleWindow 1 2 8 28).start_time =
        (sampleSection 2 20).estimated_duration_sec ∧
      (sampleWindow 1 2 8 28).audio_file = none) ∧
    (({ slide_index := 0, section_id := 1, start_time := 0, end_time := 8,
        audio_file := some "b" } : SyncInfo).end_time -
        ({ slide_index := 0, section_id := 1, start_time := 0, end_time := 8,
           audio_file := some "b" } : SyncInfo).start_time = 8 ∧
      ({ slide_index := 0, section_id := 1, start_time := 0, end_time := 8,
         audio_file := some "b" } : SyncInfo).audio_file = some "b") :=
  ⟨(C7_missing_audio (sampleScript [sampleSection 1 10, sampleSection 2 20])
      (samplePres 2) [(1, "a", 5), (1, "b", 8)] 1 (sampleWindow 1 2 8 28)
      (sampleSection 2 20)
      (by norm_num [SyncService.create_sync_data, sectionsLoop, audioMapGet,
        SyncData.calculate_total_duration, sampleScript, sampleSection,
        samplePres, sampleSlide, sampleWindow])
      (by decide)).1 (by decide),
   (C7_missing_audio (sampleScript [sampleSection 1 10, sampleSection 2 20])
      (samplePres 2) [(1, "a", 5), (1, "b", 8)] 0
      { slide_index := 0, section_id := 1, start_time := 0, end_time := 8,
        audio_file := some "b" } (sampleSection 1 10)
      (by norm_num [SyncService.create_sync_data, sectionsLoop, audioMapGet,
        SyncData.calculate_total_duration, sampleScript, sampleSection,
        samplePres, sampleSlide])
      (by decide)).2 [(1, "a", 5)] "b" 8 [] rfl (by decide)⟩

theorem slideAtLoop_some (t : ℚ) :
    ∀ (l : List SyncInfo) (idx : Nat), SyncService.slideAtLoop t l = some idx →
      ∃ it ∈ l, it.slide_index = idx ∧ it.start_time ≤ t ∧ t < it.end_time := by
  intro l
  induction l with
  | nil => intro idx h; simp [SyncService.slideAtLoop] at h
  | cons a rest ih =>
    intro idx h
    simp only [SyncService.slideAtLoop] at h
    split at h
    · rename_i hcond
      injection h with h
      subst h
      exact ⟨a, List.mem_cons_self _ _, rfl, hcond.1, hcond.2⟩
    · obtain ⟨it, hm, h1, h2⟩ := ih idx h
      exact ⟨it, List.mem_cons_of_mem _ hm, h1, h2⟩

theorem slideAtLoop_none (t : ℚ) :
    ∀ (l : List SyncInfo), SyncService.slideAtLoop t l = none ↔
      ∀ it ∈ l, ¬ (it.start_time ≤ t ∧ t < it.end_time) := by
  intro l
  induction l with
  | nil =>
    constructor
    · intro _ it hm
      simp at hm
    · intro _
      rfl
  | cons a rest ih =>
    simp only [SyncService.slideAtLoop]
    split
    · rename_i hcond
      constructor
      · intro h
        exact absurd h (by simp)
      · intro hall
        exact absurd hcond (hall a (List.mem_cons_self _ _))
    · rename_i hcond
      rw [ih]
      constructor
      · intro hall it hm
        rcases List.mem_cons.mp hm with rfl | hm
        · exact hcond
        · exact hall it hm
      · intro hall it hm
        exact hall it (List.mem_cons_of_mem _ hm)

/-- C8: `get_slide_at_time` returns `some idx` only when some window with
slide index `idx` satisfies `start_time ≤ t < end_time`, and returns `none`
exactly when no window contains `t` (in particular for negative `t` and
for `t` at or beyond the end); being a total function, it never raises. -/
theorem C8_get_slide_at_time (sd : SyncData) (t : ℚ) :
    (∀ idx, SyncService.get_slide_at_time sd t = some idx →
      ∃ it ∈ sd.sync_items,
        it.slide_index = idx ∧ it.start_time ≤ t ∧ t < it.end_time) ∧
    (SyncService.get_slide_at_time sd t = none ↔
      ∀ it ∈ sd.sync_items, ¬ (it.start_time ≤ t ∧ t < it.end_time)) :=
  ⟨fun idx h => slideAtLoop_some t sd.sync_items idx h,
   slideAtLoop_none t sd.sync_items⟩

/-- Witness for C8 at the spec's example timeline (windows `[0,10)` and
`[10,25)`) at time `t = 10`. -/
theorem C8_get_slide_at_time_witness :
    (∀ idx, SyncService.get_slide_at_time sampleTimeline 10 = some idx →
      ∃ it ∈ sampleTimeline.sync_items,
        it.slide_index = idx ∧ it.start_time ≤ 10 ∧ (10 : ℚ) < it.end_time) ∧
    (SyncService.get_slide_at_time sampleTimeline 10 = none ↔
      ∀ it ∈ sampleTimeline.sync_items,
        ¬ (it.start_time ≤ 10 ∧ (10 : ℚ) < it.end_time)) :=
  C8_get_slide_at_time sampleTimeline 10

theorem simpleLoop_length :
    ∀ (pairs : List (Slide × ℚ)) (i : Nat) (t : ℚ),
      (SyncService.simpleLoop pairs i t).length = pairs.length := by
  intro pairs
  induction pairs with
  | nil => intro i t; rfl
  | cons pr rest ih =>
    intro i t
    obtain ⟨sl, d⟩ := pr
    simp only [SyncService.simpleLoop, List.length_cons, ih]

theorem simpleLoop_getElem :
    ∀ (pairs : List (Slide × ℚ)) (i : Nat) (t : ℚ) (k : Nat) (it : SyncInfo),
      (SyncService.simpleLoop pairs i t)[k]? = some it →
      it.slide_index = i + k ∧ it.section_id = ((i + k : Nat) : Int) ∧
      it.audio_file = none ∧
      ∃ pr, pairs[k]? = some pr ∧ it.end_time = it.start_time + pr.2 := by
  intro pairs
  induction pairs with
  | nil => intro i t k it h; simp [SyncService.simpleLoop] at h
  | cons pr rest ih =>
    intro i t k it h
    obtain ⟨sl, d⟩ := pr
    simp only [SyncService.simpleLoop] at h
    cases k with
    | zero =>
      rw [List.getElem?_cons_zero] at h
      simp only [Option.some.injEq] at h
      subst h
      exact ⟨by simp, by simp, rfl, (sl, d), by simp, by simp⟩
    | succ k =>
      rw [List.getElem?_cons_succ] at h
      obtain ⟨h1, h2, h3, pr', hp, he⟩ := ih (i + 1) _ k it h
      refine ⟨by omega, by omega, h3, pr', ?_, he⟩
      rw [List.getElem?_cons_succ]
      exact hp

/-- C9: `create_simple_sync` fails with `InputMismatch`, carrying the
duration count and the slide count, exactly when those two counts differ;
otherwise it returns one window per slide, window `k` having slide index
`k`, section identifier `k`, no audio file and duration `durations[k]`,
produced by the same sequential-cursor construction (chained from `0`). -/
theorem C9_mismatch_rejection (p : Presentation) (d : List ℚ) :
    (SyncService.create_simple_sync p d =
        .error (.InputMismatch d.length p.slides.length) ↔
      d.length ≠ p.slides.length) ∧
    (∀ res, SyncService.create_simple_sync p d = .ok res →
      res.sync_items.length = p.slides.length ∧
      ChainedFrom 0 res.sync_items ∧
      ∀ (k : Nat) (it : SyncInfo), res.sync_items[k]? = some it →
        it.slide_index = k ∧ it.section_id = (k : Int) ∧
        it.audio_file = none ∧
        ∃ dur, d[k]? = some dur ∧ it.end_time = it.start_time + dur) := by
  constructor
  · constructor
    · intro h hlen
      unfold SyncService.create_simple_sync at h
      rw [if_neg (not_not_intro hlen)] at h
      simp at h
    · intro hne
      unfold SyncService.create_simple_sync
      rw [if_pos hne]
  · intro res hres
    unfold SyncService.create_simple_sync at hres
    split at hres
    · simp at hres
    · rename_i hcond
      have hlen : d.length = p.slides.length := not_not.mp hcond
      injection hres with hres
      subst hres
      refine ⟨?_, ?_, ?_⟩
      · rw [calcTotal_sync_items, simpleLoop_length, List.length_zip]
        omega
      · rw [calcTotal_sync_items]
        exact simpleLoop_chainedFrom _ 0 0
      · intro k it h
        rw [calcTotal_sync_items] at h
        obtain ⟨h1, h2, h3, pr, hp, he⟩ :=
          simpleLoop_getElem (p.slides.zip d) 0 0 k it (by exact h)
        rw [List.getElem?_zip_eq_some] at hp
        exact ⟨by omega, by omega, h3, pr.2, hp.2, he⟩

/-- Witness for C9 at a presentation with two slides and durations of
matching length. -/
theorem C9_mismatch_rejection_witness :
    (SyncService.create_simple_sync (samplePres 2) [1, 2] =
        .error (.InputMismatch ([1, 2] : List ℚ).length
          (samplePres 2).slides.length) ↔
      ([1, 2] : List ℚ).length ≠ (samplePres 2).slides.length) ∧
    (∀ res, SyncService.create_simple_sync (samplePres 2) [1, 2] = .ok res →
      res.sync_items.length = (samplePres 2).slides.length ∧
      ChainedFrom 0 res.sync_items ∧
      ∀ (k : Nat) (it : SyncInfo), res.sync_items[k]? = some it →
        it.slide_index = k ∧ it.section_id = (k : Int) ∧
        it.audio_file = none ∧
        ∃ dur, ([1, 2] : List ℚ)[k]? = some dur ∧
          it.end_time = it.start_time + dur) :=
  C9_mismatch_rejection (samplePres 2) [1, 2]
